import Mathlib

/-!
Verification development for the monitor-hub heartbeat and alerting service.

The embedding follows the Python source:
- `src/monitor_hub/app.py` : the `receive_heartbeat` endpoint (validation,
  `INSERT OR REPLACE` into `agents`, `INSERT` into `heartbeat_log`, commit,
  conditional Slack error alert).
- `src/monitor_hub/watchdog.py` : the `Watchdog.check_all_agents` sweep
  (snapshot via `fetchall`, per-row skip of null / unparseable timestamps,
  overdue test `hours_overdue > expected_interval`, timeout alert dispatch,
  `UPDATE ... SET status = stale`) and the `start` loop that catches a
  per-tick exception and keeps running.

Times are modelled in integer seconds.  The Python code compares
`hours_overdue > expected_interval` where `hours_overdue` is
`total_seconds / 3600`; over the rationals this is equivalent to
`3600 * expected_interval < seconds`, which is how the test is embedded.
`int(hours_overdue)` truncates toward zero, embedded as `Int.tdiv`.
-/

/-- The stored `last_heartbeat` column: SQLite `TIMESTAMP` (really TEXT).
`null` is a NULL column, `badFormat` a string `datetime.fromisoformat`
rejects, `parsed` a timestamp that parses (in seconds). -/
inductive StoredTime where
  | null : StoredTime
  | badFormat (s : String) : StoredTime
  | parsed (t : Int) : StoredTime
deriving Repr, DecidableEq

/-- One row of the `agents` table (`init_db` in app.py):
`id INTEGER PRIMARY KEY AUTOINCREMENT`, `name TEXT UNIQUE NOT NULL`,
`last_heartbeat TIMESTAMP`, `expected_interval_hours INTEGER DEFAULT 24`,
`status TEXT DEFAULT 'unknown'`, `last_message TEXT`,
`created_at TIMESTAMP DEFAULT CURRENT_TIMESTAMP`. -/
structure AgentRow where
  id : Nat
  name : String
  last_heartbeat : StoredTime
  expected_interval_hours : Int
  status : String
  last_message : String
  created_at : Int
deriving Repr, DecidableEq

/-- One row of the `heartbeat_log` table. -/
structure LogEntry where
  agent_name : String
  status : String
  message : String
  timestamp : Int
deriving Repr, DecidableEq

/-- The SQLite database state: the `agents` table (list in rowid order),
the autoincrement counter for `agents.id`, and the append-only
`heartbeat_log`. -/
structure DBState where
  agents : List AgentRow
  nextAgentId : Nat
  log : List LogEntry
deriving Repr, DecidableEq

def emptyDB : DBState := ⟨[], 1, []⟩

/-- The `HeartbeatRequest` pydantic model in app.py.  `message` and
`expected_interval_hours` are `Optional` with defaults `""` and `24`. -/
structure HeartbeatRequest where
  agent_name : String
  status : String
  message : String := ""
  expected_interval_hours : Int := 24
deriving Repr, DecidableEq

/-- Observable side effects, in the order the code performs them. -/
inductive Event where
  | registryUpsert (name status message : String) (interval at_ : Int) : Event
  | logAppend (name status message : String) (at_ : Int) : Event
  | errorAlertDispatch (name message : String) : Event
  | timeoutAlertDispatch (name : String) (lastHb : StoredTime) (hoursOverdue : Int) : Event
  | markStaleWrite (name : String) : Event
deriving Repr, DecidableEq

/-- The `INSERT OR REPLACE INTO agents` statement in `receive_heartbeat`
(app.py lines 112-121).  SQLite `INSERT OR REPLACE` deletes any row that
conflicts on the UNIQUE `name` and inserts a brand-new row: the new row
takes the next autoincrement `id`, and `created_at`, absent from the column
list, takes its default `CURRENT_TIMESTAMP` again. -/
def upsertAgent (st : DBState) (name : String) (status : String)
    (message : String) (interval : Int) (now : Int) : DBState :=
  { st with
    agents := st.agents.filter (fun r => r.name ≠ name) ++
      [⟨st.nextAgentId, name, StoredTime.parsed now, interval, status, message, now⟩],
    nextAgentId := st.nextAgentId + 1 }

/-- The `receive_heartbeat` endpoint (app.py lines 100-144).
Validation: raise 400 unless `status` is in `[success, error]`; the raise
happens before any database access, so a rejected report changes nothing.
Then: `INSERT OR REPLACE` the agent row, `INSERT` the log entry, commit,
and, only when `status == error`, dispatch one Slack error alert. -/
def receive_heartbeat (st : DBState) (hb : HeartbeatRequest) (now : Int) :
    Except String (DBState × List Event) :=
  if hb.status = "success" ∨ hb.status = "error" then
    let st1 := upsertAgent st hb.agent_name hb.status hb.message
      hb.expected_interval_hours now
    let st2 := { st1 with
      log := st1.log ++ [⟨hb.agent_name, hb.status, hb.message, now⟩] }
    let evs :=
      [Event.registryUpsert hb.agent_name hb.status hb.message
        hb.expected_interval_hours now,
       Event.logAppend hb.agent_name hb.status hb.message now] ++
      (if hb.status = "error"
        then [Event.errorAlertDispatch hb.agent_name hb.message] else [])
    Except.ok (st2, evs)
  else
    Except.error "status must be success or error"

/-- State after `receive_heartbeat`; a rejected report leaves the database
untouched (the HTTPException is raised before the connection is opened). -/
def heartbeatState (st : DBState) (hb : HeartbeatRequest) (now : Int) : DBState :=
  match receive_heartbeat st hb now with
  | Except.ok (st2, _) => st2
  | Except.error _ => st

/-- Side effects of `receive_heartbeat`; none when the report is rejected. -/
def heartbeatEvents (st : DBState) (hb : HeartbeatRequest) (now : Int) : List Event :=
  match receive_heartbeat st hb now with
  | Except.ok (_, evs) => evs
  | Except.error _ => []

/-- Whether `receive_heartbeat` raises the 400 HTTPException. -/
def isRejected {α : Type} (r : Except String α) : Bool :=
  match r with
  | Except.ok _ => false
  | Except.error _ => true

/-- The overdue test of watchdog.py lines 57-71 for one snapshot row:
skip if `last_heartbeat` is falsy or fails `datetime.fromisoformat`,
otherwise compare `hours_overdue > expected_interval`. -/
def isOverdue (now : Int) (r : AgentRow) : Bool :=
  match r.last_heartbeat with
  | StoredTime.null => false
  | StoredTime.badFormat _ => false
  | StoredTime.parsed t => 3600 * r.expected_interval_hours < now - t

/-- `int(hours_overdue)` for a row whose timestamp parsed: Python `int`
truncation toward zero of `(now - t) / 3600`. -/
def overdueHours (now : Int) (r : AgentRow) : Int :=
  match r.last_heartbeat with
  | StoredTime.parsed t => (now - t).tdiv 3600
  | _ => 0

/-- The `UPDATE agents SET status = stale WHERE name = ?` statement
(watchdog.py lines 79-84). -/
def applyStale (st : DBState) (name : String) : DBState :=
  { st with
    agents := st.agents.map (fun r =>
      if r.name = name then { r with status := "stale" } else r) }

/-- The per-row side effects of one sweep iteration for an overdue row, in
source order (watchdog.py lines 71-84): dispatch the timeout alert with the
stored timestamp and `int(hours_overdue)`, then write `stale`.  A row that
is skipped or not overdue produces nothing. -/
def agentTickEvents (now : Int) (r : AgentRow) : List Event :=
  if isOverdue now r then
    [Event.timeoutAlertDispatch r.name r.last_heartbeat (overdueHours now r),
     Event.markStaleWrite r.name]
  else []

/-- The `for row in cursor.fetchall()` loop of `check_all_agents`
(watchdog.py lines 54-84).  `rows` is the snapshot taken by `fetchall`
before any update; each row with a null or unparseable timestamp is
skipped, and each overdue row gets the alert dispatched FIRST and only then
its `stale` write.  There is no check of the row's current status:
already-stale rows are processed again.  `st` is the live database, `acc`
the events so far. -/
def sweepLoop (now : Int) (rows : List AgentRow) (st : DBState)
    (acc : List Event) : DBState × List Event :=
  match rows with
  | [] => (st, acc)
  | r :: rest =>
    if isOverdue now r then
      sweepLoop now rest (applyStale st r.name) (acc ++ agentTickEvents now r)
    else
      sweepLoop now rest st acc

/-- `Watchdog.check_all_agents`: snapshot all agents, run the loop. -/
def check_all_agents (st : DBState) (now : Int) : DBState × List Event :=
  sweepLoop now st.agents st []

/-- Does this event carry the given agent name? -/
def concernsAgent (name : String) : Event → Bool
  | Event.registryUpsert n _ _ _ _ => n == name
  | Event.logAppend n _ _ _ => n == name
  | Event.errorAlertDispatch n _ => n == name
  | Event.timeoutAlertDispatch n _ _ => n == name
  | Event.markStaleWrite n => n == name

def isTimeoutAlertFor (name : String) : Event → Bool
  | Event.timeoutAlertDispatch n _ _ => n == name
  | _ => false

def isErrorAlertFor (name : String) : Event → Bool
  | Event.errorAlertDispatch n _ => n == name
  | _ => false

def isLogAppendEvent : Event → Bool
  | Event.logAppend _ _ _ _ => true
  | _ => false

def isRegistryUpsertEvent : Event → Bool
  | Event.registryUpsert _ _ _ _ _ => true
  | _ => false

def isMarkStaleFor (name : String) : Event → Bool
  | Event.markStaleWrite n => n == name
  | _ => false

/-- Registry read by name (`SELECT ... WHERE`-style lookup; `name` is
UNIQUE in the schema). -/
def lookupAgent (st : DBState) (name : String) : Option AgentRow :=
  st.agents.find? (fun r => r.name == name)

/-- The sweep loop with a fault injected at the claim's premise: `fails`
names the agents whose evaluation raises.  `check_all_agents` has no
per-agent try/except (the only try around the loop body is the one guarding
`datetime.fromisoformat`, and `send_timeout_alert` swallows `SlackApiError`
internally), so an exception from the `UPDATE ... SET status = stale`
statement for one agent propagates out of the `for` loop: the alert for
that agent was already dispatched, its stale write is lost, and the
remaining snapshot rows are never examined.  The third component records
whether the exception escaped the tick. -/
def sweepLoopExc (now : Int) (fails : String → Bool) (rows : List AgentRow)
    (st : DBState) (acc : List Event) : DBState × List Event × Bool :=
  match rows with
  | [] => (st, acc, false)
  | r :: rest =>
    if isOverdue now r then
      if fails r.name then
        (st, acc ++ [Event.timeoutAlertDispatch r.name r.last_heartbeat
                       (overdueHours now r)], true)
      else
        sweepLoopExc now fails rest (applyStale st r.name)
          (acc ++ agentTickEvents now r)
    else
      sweepLoopExc now fails rest st acc

/-- `check_all_agents` under the fault injection. -/
def check_all_agents_exc (st : DBState) (now : Int) (fails : String → Bool) :
    DBState × List Event × Bool :=
  sweepLoopExc now fails st.agents st []

/-- The `Watchdog.start` loop (watchdog.py lines 27-33): each tick runs
`check_all_agents` inside a try/except that prints and discards any
exception, then sleeps; the loop itself never dies.  A tick is a pair of
its wall-clock time and the fault injection active during it.  Returns the
final state and one event list per tick. -/
def watchdogRun (st : DBState) (ticks : List (Int × (String → Bool))) :
    DBState × List (List Event) :=
  match ticks with
  | [] => (st, [])
  | (now, fails) :: rest =>
    let r := check_all_agents_exc st now fails
    let after := watchdogRun r.1 rest
    (after.1, r.2.1 :: after.2)

/-- One processor or sweeper invocation, for reachability (C8): a heartbeat
report (a rejected one leaves the state unchanged) or one watchdog tick. -/
inductive Op where
  | heartbeat (hb : HeartbeatRequest) (now : Int) : Op
  | sweep (now : Int) : Op

def applyOp (st : DBState) (op : Op) : DBState :=
  match op with
  | Op.heartbeat hb now => heartbeatState st hb now
  | Op.sweep now => (check_all_agents st now).1

/-- The state reached from the empty database by a sequence of operations. -/
def runOps (ops : List Op) : DBState :=
  ops.foldl applyOp emptyDB

/-! ### Characterizations of the sweep loop -/

/-- All side effects of one sweep tick over a snapshot, in loop order. -/
def sweepEventsOf (now : Int) (rows : List AgentRow) : List Event :=
  match rows with
  | [] => []
  | r :: rest => agentTickEvents now r ++ sweepEventsOf now rest

/-- Names of snapshot rows the tick finds overdue. -/
def overdueNames (now : Int) (rows : List AgentRow) : List String :=
  match rows with
  | [] => []
  | r :: rest =>
    if isOverdue now r then r.name :: overdueNames now rest
    else overdueNames now rest

/-- The cumulative effect of the tick's `UPDATE` statements on one row. -/
def staleUpdate (names : List String) (a : AgentRow) : AgentRow :=
  if a.name ∈ names then { a with status := "stale" } else a

lemma sweepLoop_events (now : Int) (rows : List AgentRow) :
    ∀ (st : DBState) (acc : List Event),
      (sweepLoop now rows st acc).2 = acc ++ sweepEventsOf now rows := by
  induction rows with
  | nil => intro st acc; simp [sweepLoop, sweepEventsOf]
  | cons r rest ih =>
    intro st acc
    by_cases h : isOverdue now r
    · simp [sweepLoop, sweepEventsOf, h, ih, List.append_assoc]
    · simp [sweepLoop, sweepEventsOf, agentTickEvents, h, ih]

lemma staleUpdate_comp (rname : String) (names : List String) :
    (staleUpdate names ∘ fun a : AgentRow =>
        if a.name = rname then { a with status := "stale" } else a) =
      staleUpdate (rname :: names) := by
  funext a
  by_cases ha : a.name = rname
  · simp only [Function.comp_apply, staleUpdate, ha, if_pos, List.mem_cons,
      true_or, if_true]
    split <;> rfl
  · simp [staleUpdate, ha]

lemma sweepLoop_state (now : Int) (rows : List AgentRow) :
    ∀ (st : DBState) (acc : List Event),
      (sweepLoop now rows st acc).1 =
        { st with agents := st.agents.map (staleUpdate (overdueNames now rows)) } := by
  induction rows with
  | nil =>
    intro st acc
    have h0 : staleUpdate ([] : List String) = id := by
      funext a
      simp [staleUpdate]
    have h : st.agents.map (staleUpdate (overdueNames now [])) = st.agents := by
      simp [overdueNames, h0]
    simp [sweepLoop, h]
  | cons r rest ih =>
    intro st acc
    by_cases h : isOverdue now r
    · simp only [sweepLoop, h, if_true, ih, applyStale, overdueNames]
      rw [List.map_map, staleUpdate_comp]
    · simp [sweepLoop, overdueNames, h, ih]

lemma check_all_agents_events (st : DBState) (now : Int) :
    (check_all_agents st now).2 = sweepEventsOf now st.agents := by
  simp [check_all_agents, sweepLoop_events]

lemma check_all_agents_state (st : DBState) (now : Int) :
    (check_all_agents st now).1 =
      { st with agents := st.agents.map (staleUpdate (overdueNames now st.agents)) } := by
  simp [check_all_agents, sweepLoop_state]

lemma agentTickEvents_filter_ne (now : Int) (r : AgentRow) (name : String)
    (h : r.name ≠ name) :
    (agentTickEvents now r).filter (concernsAgent name) = [] := by
  unfold agentTickEvents
  have hb : (r.name == name) = false := by
    simp [h]
  by_cases ho : isOverdue now r
  · simp [ho, concernsAgent, List.filter, hb]
  · simp [ho]

lemma agentTickEvents_filter_self (now : Int) (r : AgentRow) :
    (agentTickEvents now r).filter (concernsAgent r.name) =
      agentTickEvents now r := by
  unfold agentTickEvents
  by_cases ho : isOverdue now r
  · simp [ho, concernsAgent, List.filter]
  · simp [ho]

lemma sweepEventsOf_filter_not_mem (now : Int) (rows : List AgentRow)
    (name : String) (h : name ∉ rows.map AgentRow.name) :
    (sweepEventsOf now rows).filter (concernsAgent name) = [] := by
  induction rows with
  | nil => simp [sweepEventsOf]
  | cons a rest ih =>
    simp only [List.map_cons, List.mem_cons, not_or] at h
    rw [sweepEventsOf, List.filter_append,
      agentTickEvents_filter_ne now a name (fun hc => h.1 hc.symm), ih h.2]
    rfl

/-- With UNIQUE names, the events of one tick that concern a given snapshot
row are exactly that row's own events. -/
lemma sweepEventsOf_filter_mem (now : Int) (rows : List AgentRow)
    (r : AgentRow) (hmem : r ∈ rows)
    (hnodup : (rows.map AgentRow.name).Nodup) :
    (sweepEventsOf now rows).filter (concernsAgent r.name) =
      agentTickEvents now r := by
  induction rows with
  | nil => cases hmem
  | cons a rest ih =>
    rw [List.map_cons, List.nodup_cons] at hnodup
    rcases List.mem_cons.mp hmem with heq | hmemr
    · subst heq
      rw [sweepEventsOf, List.filter_append, agentTickEvents_filter_self,
        sweepEventsOf_filter_not_mem now rest r.name hnodup.1,
        List.append_nil]
    · have hne : a.name ≠ r.name := by
        intro hc
        exact hnodup.1 (hc ▸ List.mem_map.mpr ⟨r, hmemr, rfl⟩)
      rw [sweepEventsOf, List.filter_append,
        agentTickEvents_filter_ne now a r.name hne, ih hmemr hnodup.2,
        List.nil_append]

/-- A name in `overdueNames` comes from an overdue snapshot row. -/
lemma mem_overdueNames (now : Int) (rows : List AgentRow) (name : String)
    (h : name ∈ overdueNames now rows) :
    ∃ r ∈ rows, isOverdue now r = true ∧ r.name = name := by
  induction rows with
  | nil => simp [overdueNames] at h
  | cons a rest ih =>
    rw [overdueNames] at h
    by_cases ho : isOverdue now a
    · rw [if_pos ho] at h
      rcases List.mem_cons.mp h with heq | hmem
      · exact ⟨a, List.mem_cons_self a rest, ho, heq.symm⟩
      · rcases ih hmem with ⟨r, hr, hor, hn⟩
        exact ⟨r, List.mem_cons_of_mem a hr, hor, hn⟩
    · rw [if_neg ho] at h
      rcases ih h with ⟨r, hr, hor, hn⟩
      exact ⟨r, List.mem_cons_of_mem a hr, hor, hn⟩

/-- With UNIQUE names, the registry lookup of a present row finds it. -/
lemma find?_name_of_mem (rows : List AgentRow) (r : AgentRow)
    (hmem : r ∈ rows) (hnodup : (rows.map AgentRow.name).Nodup) :
    rows.find? (fun a => a.name == r.name) = some r := by
  induction rows with
  | nil => cases hmem
  | cons a rest ih =>
    by_cases h : a.name = r.name
    · have heq : a = r :=
        List.inj_on_of_nodup_map hnodup (List.mem_cons_self a rest) hmem h
      subst heq
      exact List.find?_cons_of_pos rest (by simp)
    · have hmemr : r ∈ rest := by
        rcases List.mem_cons.mp hmem with heq | hm
        · exact absurd (heq ▸ rfl) h
        · exact hm
      rw [List.find?_cons_of_neg rest (by simp [h])]
      rw [List.map_cons, List.nodup_cons] at hnodup
      exact ih hmemr hnodup.2

/-- An overdue snapshot row's name is collected in `overdueNames`. -/
lemma name_mem_overdueNames (now : Int) (rows : List AgentRow) (r : AgentRow)
    (hmem : r ∈ rows) (hov : isOverdue now r = true) :
    r.name ∈ overdueNames now rows := by
  induction rows with
  | nil => cases hmem
  | cons a rest ih =>
    rw [overdueNames]
    rcases List.mem_cons.mp hmem with heq | hm
    · subst heq
      rw [if_pos hov]
      exact List.mem_cons_self _ _
    · by_cases ho : isOverdue now a
      · rw [if_pos ho]
        exact List.mem_cons_of_mem _ (ih hm)
      · rw [if_neg ho]
        exact ih hm

/-- With UNIQUE names, a non-overdue row's name is not collected. -/
lemma name_not_mem_overdueNames (now : Int) (rows : List AgentRow)
    (r : AgentRow) (hmem : r ∈ rows)
    (hnodup : (rows.map AgentRow.name).Nodup)
    (hov : isOverdue now r = false) :
    r.name ∉ overdueNames now rows := by
  intro hc
  rcases mem_overdueNames now rows r.name hc with ⟨a, hma, hoa, hna⟩
  have heq : a = r := List.inj_on_of_nodup_map hnodup hma hmem hna
  rw [heq, hov] at hoa
  cases hoa

lemma find?_map_staleUpdate (ns : List String) (rows : List AgentRow)
    (r : AgentRow) (hmem : r ∈ rows)
    (hnodup : (rows.map AgentRow.name).Nodup) :
    (rows.map (staleUpdate ns)).find? (fun a => a.name == r.name) =
      some (staleUpdate ns r) := by
  rw [List.find?_map]
  have hcomp : ((fun a : AgentRow => a.name == r.name) ∘ staleUpdate ns) =
      (fun a : AgentRow => a.name == r.name) := by
    funext a
    simp only [Function.comp_apply]
    unfold staleUpdate
    split <;> rfl
  rw [hcomp, find?_name_of_mem rows r hmem hnodup]
  rfl

/-- With UNIQUE names, the registry row for a snapshot agent after one tick
is the snapshot row with the tick's stale update applied. -/
lemma lookupAgent_sweep (st : DBState) (now : Int) (r : AgentRow)
    (hmem : r ∈ st.agents) (hnodup : (st.agents.map AgentRow.name).Nodup) :
    lookupAgent (check_all_agents st now).1 r.name =
      some (staleUpdate (overdueNames now st.agents) r) := by
  rw [check_all_agents_state]
  exact find?_map_staleUpdate (overdueNames now st.agents) st.agents r hmem hnodup

/-! ### Characterization of the heartbeat upsert -/

lemma lookup_upsert (st : DBState) (name status message : String)
    (interval now : Int) :
    lookupAgent (upsertAgent st name status message interval now) name =
      some ⟨st.nextAgentId, name, StoredTime.parsed now, interval, status,
        message, now⟩ := by
  unfold lookupAgent upsertAgent
  rw [List.find?_append]
  have hnone :
      (st.agents.filter (fun r => r.name ≠ name)).find?
        (fun r => r.name == name) = none := by
    rw [List.find?_eq_none]
    intro r hr
    rw [List.mem_filter] at hr
    simp only [decide_eq_true_eq] at hr
    simp [hr.2]
  rw [hnone]
  simp [List.find?]

/-- For a valid report, `receive_heartbeat` succeeds with the
upserted agent row plus one appended log entry. -/
lemma heartbeatState_valid (st : DBState) (hb : HeartbeatRequest) (now : Int)
    (h : hb.status = "success" ∨ hb.status = "error") :
    heartbeatState st hb now =
      { upsertAgent st hb.agent_name hb.status hb.message
          hb.expected_interval_hours now with
        log := st.log ++ [⟨hb.agent_name, hb.status, hb.message, now⟩] } := by
  unfold heartbeatState receive_heartbeat
  rw [if_pos h]
  rfl

/-- For a valid report, the emitted effects are the registry upsert, the
log append, and, only for an error report, the alert dispatch. -/
lemma heartbeatEvents_valid (st : DBState) (hb : HeartbeatRequest) (now : Int)
    (h : hb.status = "success" ∨ hb.status = "error") :
    heartbeatEvents st hb now =
      [Event.registryUpsert hb.agent_name hb.status hb.message
         hb.expected_interval_hours now,
       Event.logAppend hb.agent_name hb.status hb.message now] ++
      (if hb.status = "error"
        then [Event.errorAlertDispatch hb.agent_name hb.message] else []) := by
  unfold heartbeatEvents receive_heartbeat
  rw [if_pos h]

/-! ### Claim C2 : side-effect order of the heartbeat endpoint -/

/-- Claim C2 as stated is false: at a concrete valid report the Heartbeat
Log append does not precede the Registry write — `receive_heartbeat`
executes the `INSERT OR REPLACE INTO agents` before the
`INSERT INTO heartbeat_log`. -/
theorem c2_counterexample :
    ¬ ((heartbeatEvents emptyDB ⟨"a", "success", "", 24⟩ 0).findIdx
        isLogAppendEvent <
      (heartbeatEvents emptyDB ⟨"a", "success", "", 24⟩ 0).findIdx
        isRegistryUpsertEvent) := by
  decide

/-- Claim C2 (amended): for every valid report the side effects occur in
the fixed order registry write, then log append, then (only for an error
report) alert dispatch; in particular the registry write completes before
any alert dispatch is attempted. -/
theorem c2_effect_order (st : DBState) (hb : HeartbeatRequest) (now : Int)
    (hvalid : hb.status = "success" ∨ hb.status = "error") :
    (heartbeatEvents st hb now).findIdx isRegistryUpsertEvent = 0 ∧
    (heartbeatEvents st hb now).findIdx isLogAppendEvent = 1 ∧
    (hb.status = "error" →
      (heartbeatEvents st hb now).findIdx (isErrorAlertFor hb.agent_name) = 2) := by
  rw [heartbeatEvents_valid st hb now hvalid]
  refine ⟨?_, ?_, ?_⟩
  · simp [List.findIdx_cons, isRegistryUpsertEvent]
  · simp [List.findIdx_cons, isLogAppendEvent]
  · intro herr
    simp [List.findIdx_cons, isErrorAlertFor, herr]

/-- Witness for `c2_effect_order` at a concrete error report. -/
theorem c2_effect_order_witness :
    (heartbeatEvents emptyDB ⟨"a", "error", "m", 24⟩ 5).findIdx
        isRegistryUpsertEvent = 0 ∧
    (heartbeatEvents emptyDB ⟨"a", "error", "m", 24⟩ 5).findIdx
        (isErrorAlertFor "a") = 2 :=
  ⟨(c2_effect_order emptyDB ⟨"a", "error", "m", 24⟩ 5 (Or.inr rfl)).1,
   (c2_effect_order emptyDB ⟨"a", "error", "m", 24⟩ 5 (Or.inr rfl)).2.2 rfl⟩

/-! ### Claim C4 : registry freshness after a valid report -/

/-- Claim C4: after processing a valid report, the Registry entry for the
agent has the report's status and the server-assigned received time as its
heartbeat, whatever the prior row was (in particular a prior `stale` row is
overwritten, so the next overdue window is measured from the new
heartbeat). -/
theorem c4_registry_freshness (st : DBState) (hb : HeartbeatRequest)
    (now : Int) (hvalid : hb.status = "success" ∨ hb.status = "error") :
    ∃ row : AgentRow,
      lookupAgent (heartbeatState st hb now) hb.agent_name = some row ∧
      row.status = hb.status ∧
      row.last_heartbeat = StoredTime.parsed now := by
  refine ⟨⟨st.nextAgentId, hb.agent_name, StoredTime.parsed now,
    hb.expected_interval_hours, hb.status, hb.message, now⟩, ?_, rfl, rfl⟩
  rw [heartbeatState_valid st hb now hvalid]
  exact lookup_upsert st hb.agent_name hb.status hb.message
    hb.expected_interval_hours now

/-- Witness for `c4_registry_freshness`: a report for an agent currently
`stale` transitions it out of `stale`. -/
theorem c4_registry_freshness_witness :
    ∃ row : AgentRow,
      lookupAgent (heartbeatState
          ⟨[⟨1, "w4", StoredTime.parsed 0, 1, "stale", "", 0⟩], 2, []⟩
          ⟨"w4", "success", "ok", 24⟩ 7200) "w4" = some row ∧
      row.status = "success" ∧
      row.last_heartbeat = StoredTime.parsed 7200 :=
  c4_registry_freshness
    ⟨[⟨1, "w4", StoredTime.parsed 0, 1, "stale", "", 0⟩], 2, []⟩
    ⟨"w4", "success", "ok", 24⟩ 7200 (Or.inl rfl)

/-! ### Claim C5 : effects of an error report -/

/-- Claim C5: an accepted error report dispatches exactly one error alert,
appends exactly one Heartbeat Log entry, and leaves the Registry showing
status `error` (not `stale`) for that agent, whatever the prior row was. -/
theorem c5_error_report_effects (st : DBState) (hb : HeartbeatRequest)
    (now : Int) (herr : hb.status = "error") :
    (heartbeatEvents st hb now).filter (isErrorAlertFor hb.agent_name) =
      [Event.errorAlertDispatch hb.agent_name hb.message] ∧
    (heartbeatState st hb now).log =
      st.log ++ [⟨hb.agent_name, "error", hb.message, now⟩] ∧
    ∃ row : AgentRow,
      lookupAgent (heartbeatState st hb now) hb.agent_name = some row ∧
      row.status = "error" := by
  have hvalid : hb.status = "success" ∨ hb.status = "error" := Or.inr herr
  refine ⟨?_, ?_, ?_⟩
  · rw [heartbeatEvents_valid st hb now hvalid]
    simp [isErrorAlertFor, List.filter, herr]
  · rw [heartbeatState_valid st hb now hvalid, herr]
  · refine ⟨⟨st.nextAgentId, hb.agent_name, StoredTime.parsed now,
      hb.expected_interval_hours, hb.status, hb.message, now⟩, ?_, herr⟩
    rw [heartbeatState_valid st hb now hvalid]
    exact lookup_upsert st hb.agent_name hb.status hb.message
      hb.expected_interval_hours now

/-- Witness for `c5_error_report_effects` on a previously stale agent. -/
theorem c5_error_report_effects_witness :
    (heartbeatEvents ⟨[⟨1, "w5", StoredTime.parsed 0, 1, "stale", "", 0⟩], 2, []⟩
        ⟨"w5", "error", "boom", 24⟩ 9000).filter (isErrorAlertFor "w5") =
      [Event.errorAlertDispatch "w5" "boom"] ∧
    (heartbeatState ⟨[⟨1, "w5", StoredTime.parsed 0, 1, "stale", "", 0⟩], 2, []⟩
        ⟨"w5", "error", "boom", 24⟩ 9000).log =
      [] ++ [⟨"w5", "error", "boom", 9000⟩] ∧
    ∃ row : AgentRow,
      lookupAgent (heartbeatState
          ⟨[⟨1, "w5", StoredTime.parsed 0, 1, "stale", "", 0⟩], 2, []⟩
          ⟨"w5", "error", "boom", 24⟩ 9000) "w5" = some row ∧
      row.status = "error" :=
  c5_error_report_effects
    ⟨[⟨1, "w5", StoredTime.parsed 0, 1, "stale", "", 0⟩], 2, []⟩
    ⟨"w5", "error", "boom", 24⟩ 9000 rfl

/-! ### Claim C6 : the validation boundary -/

/-- Claim C6 as stated is false: a report with an empty `agent_name` (and a
valid status) is NOT rejected — `receive_heartbeat` only validates the
status field, so the empty-named report is accepted and processed. -/
theorem c6_counterexample :
    ¬ (isRejected (receive_heartbeat emptyDB ⟨"", "success", "", 24⟩ 0) = true) := by
  decide

/-- Claim C6 (amended): the processor rejects a report as a malformed
request if and only if its status lies outside success or error —
`agent_name` is not validated, so an empty name passes — and a rejected
report leaves the Registry and the Heartbeat Log unchanged and dispatches
no alert. -/
theorem c6_validation_boundary (st : DBState) (hb : HeartbeatRequest)
    (now : Int) :
    (isRejected (receive_heartbeat st hb now) = true ↔
      ¬ (hb.status = "success" ∨ hb.status = "error")) ∧
    (isRejected (receive_heartbeat st hb now) = true →
      heartbeatState st hb now = st ∧ heartbeatEvents st hb now = []) := by
  by_cases h : hb.status = "success" ∨ hb.status = "error"
  · constructor
    · unfold isRejected receive_heartbeat
      rw [if_pos h]
      simp [h]
    · intro hrej
      exfalso
      unfold isRejected receive_heartbeat at hrej
      rw [if_pos h] at hrej
      simp at hrej
  · constructor
    · unfold isRejected receive_heartbeat
      rw [if_neg h]
      simp [h]
    · intro _
      unfold heartbeatState heartbeatEvents receive_heartbeat
      simp only [if_neg h]
      simp

/-- Witness for `c6_validation_boundary` at a concrete malformed report. -/
theorem c6_validation_boundary_witness :
    heartbeatState emptyDB ⟨"x", "bogus", "", 24⟩ 3 = emptyDB ∧
    heartbeatEvents emptyDB ⟨"x", "bogus", "", 24⟩ 3 = [] :=
  (c6_validation_boundary emptyDB ⟨"x", "bogus", "", 24⟩ 3).2 (by decide)

/-! ### Claim C9 : what the upsert preserves -/

/-- Claim C9 as stated is false: at a concrete pre-existing agent row (id 1,
created_at 10), a subsequent report for the same name leaves neither
`created_at` nor the row identity unchanged — `INSERT OR REPLACE` replaces
the whole row, so the row re-appears with a fresh autoincrement id and a
reset `created_at`. -/
theorem c9_counterexample :
    ¬ ((lookupAgent (heartbeatState
          ⟨[⟨1, "a", StoredTime.parsed 50, 24, "success", "m", 10⟩], 2, []⟩
          ⟨"a", "success", "x", 24⟩ 200) "a").map AgentRow.created_at =
        some 10 ∧
      (lookupAgent (heartbeatState
          ⟨[⟨1, "a", StoredTime.parsed 50, 24, "success", "m", 10⟩], 2, []⟩
          ⟨"a", "success", "x", 24⟩ 200) "a").map AgentRow.id = some 1) := by
  decide

/-- Claim C9 (amended): for an existing agent, a subsequent report
overwrites `status`, `last_message`, `expected_interval`, and
`last_heartbeat_at`, and the `name` key is preserved; but the row is
replaced wholesale — it receives the next autoincrement id and its
`created_at` is reset to the time of the upsert. -/
theorem c9_upsert_replaces_row (st : DBState) (hb : HeartbeatRequest)
    (now : Int) (hvalid : hb.status = "success" ∨ hb.status = "error") :
    lookupAgent (heartbeatState st hb now) hb.agent_name =
      some ⟨st.nextAgentId, hb.agent_name, StoredTime.parsed now,
        hb.expected_interval_hours, hb.status, hb.message, now⟩ := by
  rw [heartbeatState_valid st hb now hvalid]
  exact lookup_upsert st hb.agent_name hb.status hb.message
    hb.expected_interval_hours now

/-- Witness for `c9_upsert_replaces_row` at the counterexample's input. -/
theorem c9_upsert_replaces_row_witness :
    lookupAgent (heartbeatState
        ⟨[⟨1, "a", StoredTime.parsed 50, 24, "success", "m", 10⟩], 2, []⟩
        ⟨"a", "success", "x", 24⟩ 200) "a" =
      some ⟨2, "a", StoredTime.parsed 200, 24, "success", "x", 200⟩ :=
  c9_upsert_replaces_row
    ⟨[⟨1, "a", StoredTime.parsed 50, 24, "success", "m", 10⟩], 2, []⟩
    ⟨"a", "success", "x", 24⟩ 200 (Or.inl rfl)

/-! ### Claim C1 : no deduplication of timeout alerts -/

/-- Claim C1 as stated is false: for the agent with
`expected_interval = 1h` and `last_heartbeat = now - 2h`, the first tick
(at 7200s) marks it stale and alerts, but the second consecutive tick (at
7500s, no intervening report) dispatches one MORE alert, not zero —
`check_all_agents` never checks the current status, so already-stale agents
are re-alerted on every tick. -/
theorem c1_counterexample :
    ¬ (((check_all_agents (check_all_agents
        ⟨[⟨1, "a", StoredTime.parsed 0, 1, "success", "", 0⟩], 2, []⟩ 7200).1
        7500).2.filter (isTimeoutAlertFor "a")).length = 0) := by
  decide

/-- Claim C1 (amended): for an agent with `expected_interval = 1h` and
`last_heartbeat = now - 2h`, the first sweep tick marks it stale and
dispatches exactly one timeout alert, and a second consecutive tick with no
intervening report dispatches exactly one FURTHER alert: the sweep has no
stale-skip, so there is one alert per tick, not one per stale episode. -/
theorem c1_realert_every_tick (st : DBState) (r : AgentRow) (now1 now2 : Int)
    (hagents : st.agents = [r])
    (hhb : r.last_heartbeat = StoredTime.parsed (now1 - 7200))
    (hint : r.expected_interval_hours = 1)
    (h12 : now1 ≤ now2) :
    ((check_all_agents st now1).2.filter (isTimeoutAlertFor r.name)).length = 1 ∧
    (lookupAgent (check_all_agents st now1).1 r.name).map AgentRow.status =
      some "stale" ∧
    ((check_all_agents (check_all_agents st now1).1 now2).2.filter
      (isTimeoutAlertFor r.name)).length = 1 := by
  have hov1 : isOverdue now1 r = true := by
    simp only [isOverdue, hhb, hint, decide_eq_true_eq]
    omega
  have h1 : check_all_agents st now1 =
      (applyStale st r.name, agentTickEvents now1 r) := by
    rw [check_all_agents, hagents]
    simp only [sweepLoop, hov1, if_true, List.nil_append]
  have hmem : r ∈ st.agents := by
    rw [hagents]
    exact List.mem_cons_self r []
  have hnodup : (st.agents.map AgentRow.name).Nodup := by
    rw [hagents]
    simp
  have h2agents : (check_all_agents st now1).1.agents =
      [({ r with status := "stale" } : AgentRow)] := by
    rw [h1]
    simp [applyStale, hagents]
  have hov2 : isOverdue now2 ({ r with status := "stale" } : AgentRow) = true := by
    simp only [isOverdue, hhb, hint, decide_eq_true_eq]
    omega
  refine ⟨?_, ?_, ?_⟩
  · rw [h1]
    simp [agentTickEvents, hov1, isTimeoutAlertFor, List.filter]
  · rw [lookupAgent_sweep st now1 r hmem hnodup]
    have hm := name_mem_overdueNames now1 st.agents r hmem hov1
    simp [staleUpdate, hm]
  · rw [check_all_agents, h2agents]
    simp only [sweepLoop, hov2, if_true, List.nil_append]
    simp [agentTickEvents, hov2, isTimeoutAlertFor, List.filter]

/-- Witness for `c1_realert_every_tick` at the claim's own numbers:
first tick at 7200s, second at 7500s, heartbeat at time 0. -/
theorem c1_realert_every_tick_witness :
    ((check_all_agents
        ⟨[⟨1, "a", StoredTime.parsed 0, 1, "success", "", 0⟩], 2, []⟩
        7200).2.filter (isTimeoutAlertFor "a")).length = 1 ∧
    (lookupAgent (check_all_agents
        ⟨[⟨1, "a", StoredTime.parsed 0, 1, "success", "", 0⟩], 2, []⟩
        7200).1 "a").map AgentRow.status = some "stale" ∧
    ((check_all_agents (check_all_agents
        ⟨[⟨1, "a", StoredTime.parsed 0, 1, "success", "", 0⟩], 2, []⟩
        7200).1 7500).2.filter (isTimeoutAlertFor "a")).length = 1 :=
  c1_realert_every_tick
    ⟨[⟨1, "a", StoredTime.parsed 0, 1, "success", "", 0⟩], 2, []⟩
    ⟨1, "a", StoredTime.parsed 0, 1, "success", "", 0⟩ 7200 7500
    rfl (by decide) rfl (by decide)

/-! ### Claim C3 : order of stale write and alert dispatch -/

/-- Claim C3 as stated is false: at a concrete overdue agent the sweep does
NOT write `stale` before dispatching — the trace shows the timeout alert at
index 0 and the stale write at index 1. -/
theorem c3_counterexample :
    ¬ ((check_all_agents
        ⟨[⟨1, "a", StoredTime.parsed 0, 1, "success", "", 0⟩], 2, []⟩
        7200).2.findIdx (isMarkStaleFor "a") <
      (check_all_agents
        ⟨[⟨1, "a", StoredTime.parsed 0, 1, "success", "", 0⟩], 2, []⟩
        7200).2.findIdx (isTimeoutAlertFor "a")) := by
  decide

/-- Claim C3 (amended): for every agent the sweep finds overdue and not yet
stale, the sweep FIRST calls the Alert Dispatcher with the timeout payload
(agent name, stored heartbeat value, truncated hours overdue) and only THEN
sets that agent's status to `stale` in the Registry. -/
theorem c3_overdue_alert_then_stale (st : DBState) (now : Int) (r : AgentRow)
    (hmem : r ∈ st.agents) (hnodup : (st.agents.map AgentRow.name).Nodup)
    (hov : isOverdue now r = true) (hstatus : r.status ≠ "stale") :
    (check_all_agents st now).2.filter (concernsAgent r.name) =
      [Event.timeoutAlertDispatch r.name r.last_heartbeat (overdueHours now r),
       Event.markStaleWrite r.name] ∧
    (lookupAgent (check_all_agents st now).1 r.name).map AgentRow.status =
      some "stale" := by
  constructor
  · rw [check_all_agents_events,
      sweepEventsOf_filter_mem now st.agents r hmem hnodup,
      agentTickEvents, if_pos hov]
  · rw [lookupAgent_sweep st now r hmem hnodup]
    have hm := name_mem_overdueNames now st.agents r hmem hov
    simp [staleUpdate, hm]

/-- Witness for `c3_overdue_alert_then_stale` at a concrete overdue,
non-stale agent. -/
theorem c3_overdue_alert_then_stale_witness :
    (check_all_agents
        ⟨[⟨1, "a", StoredTime.parsed 0, 1, "success", "", 0⟩], 2, []⟩
        7200).2.filter (concernsAgent "a") =
      [Event.timeoutAlertDispatch "a" (StoredTime.parsed 0) 2,
       Event.markStaleWrite "a"] ∧
    (lookupAgent (check_all_agents
        ⟨[⟨1, "a", StoredTime.parsed 0, 1, "success", "", 0⟩], 2, []⟩
        7200).1 "a").map AgentRow.status = some "stale" :=
  c3_overdue_alert_then_stale
    ⟨[⟨1, "a", StoredTime.parsed 0, 1, "success", "", 0⟩], 2, []⟩ 7200
    ⟨1, "a", StoredTime.parsed 0, 1, "success", "", 0⟩
    (by decide) (by decide) (by decide) (by decide)

/-! ### Claim C10 : rows with null or unparseable heartbeat are skipped -/

/-- Claim C10: a sweep tick silently skips every agent whose stored
heartbeat value is null or does not parse as an ISO timestamp: no event of
the tick concerns that agent (it is never alerted for and never marked
stale) and its registry row is unchanged, no matter how much time has
passed. -/
theorem c10_skip_unparseable (st : DBState) (now : Int) (r : AgentRow)
    (hmem : r ∈ st.agents) (hnodup : (st.agents.map AgentRow.name).Nodup)
    (hbad : r.last_heartbeat = StoredTime.null ∨
      ∃ s, r.last_heartbeat = StoredTime.badFormat s) :
    (check_all_agents st now).2.filter (concernsAgent r.name) = [] ∧
    lookupAgent (check_all_agents st now).1 r.name = some r := by
  have hov : isOverdue now r = false := by
    rcases hbad with h | ⟨s, h⟩ <;> simp [isOverdue, h]
  constructor
  · rw [check_all_agents_events,
      sweepEventsOf_filter_mem now st.agents r hmem hnodup,
      agentTickEvents, if_neg (by simp [hov])]
  · rw [lookupAgent_sweep st now r hmem hnodup]
    have hnm := name_not_mem_overdueNames now st.agents r hmem hnodup hov
    simp [staleUpdate, hnm]

/-- Witness for `c10_skip_unparseable`: a null-heartbeat row next to an
unparseable-heartbeat row, swept very far in the future. -/
theorem c10_skip_unparseable_witness :
    (check_all_agents
        ⟨[⟨1, "b", StoredTime.null, 1, "success", "", 0⟩,
          ⟨2, "c", StoredTime.badFormat "notadate", 1, "success", "", 0⟩],
         3, []⟩ 999999999).2.filter (concernsAgent "b") = [] ∧
    lookupAgent (check_all_agents
        ⟨[⟨1, "b", StoredTime.null, 1, "success", "", 0⟩,
          ⟨2, "c", StoredTime.badFormat "notadate", 1, "success", "", 0⟩],
         3, []⟩ 999999999).1 "b" =
      some ⟨1, "b", StoredTime.null, 1, "success", "", 0⟩ :=
  c10_skip_unparseable
    ⟨[⟨1, "b", StoredTime.null, 1, "success", "", 0⟩,
      ⟨2, "c", StoredTime.badFormat "notadate", 1, "success", "", 0⟩],
     3, []⟩ 999999999
    ⟨1, "b", StoredTime.null, 1, "success", "", 0⟩
    (by decide) (by decide) (Or.inl rfl)

/-! ### Claim C7 : exception isolation in the sweep -/

/-- Once the sweep loop reaches an overdue agent whose evaluation raises,
the tick's event trace ends with that agent's alert dispatch: nothing after
it in the snapshot is evaluated, and the exception escapes the tick. -/
lemma sweepLoopExc_abort (now : Int) (fails : String → Bool) (r : AgentRow)
    (rest : List AgentRow) (hov : isOverdue now r = true)
    (hf : fails r.name = true) :
    ∀ (pre : List AgentRow) (st : DBState) (acc : List Event),
      (∀ a ∈ pre, fails a.name = false) →
      (sweepLoopExc now fails (pre ++ r :: rest) st acc).2.1 =
        acc ++ sweepEventsOf now pre ++
          [Event.timeoutAlertDispatch r.name r.last_heartbeat
            (overdueHours now r)] ∧
      (sweepLoopExc now fails (pre ++ r :: rest) st acc).2.2 = true := by
  intro pre
  induction pre with
  | nil =>
    intro st acc h
    simp [sweepLoopExc, hov, hf, sweepEventsOf]
  | cons a pre ih =>
    intro st acc h
    have ha : fails a.name = false := h a (List.mem_cons_self a pre)
    have hrest : ∀ b ∈ pre, fails b.name = false :=
      fun b hb => h b (List.mem_cons_of_mem a hb)
    by_cases ho : isOverdue now a
    · rcases ih (applyStale st a.name) (acc ++ agentTickEvents now a) hrest
        with ⟨h1, h2⟩
      constructor
      · rw [List.cons_append]
        simp only [sweepLoopExc, ho, if_true, ha, Bool.false_eq_true, if_false]
        rw [h1, sweepEventsOf]
        simp [List.append_assoc]
      · rw [List.cons_append]
        simp only [sweepLoopExc, ho, if_true, ha, Bool.false_eq_true, if_false]
        exact h2
    · rcases ih st acc hrest with ⟨h1, h2⟩
      constructor
      · rw [List.cons_append]
        simp only [sweepLoopExc, ho, Bool.false_eq_true, if_false]
        rw [h1, sweepEventsOf, agentTickEvents, if_neg (by simp [ho])]
        simp
      · rw [List.cons_append]
        simp only [sweepLoopExc, ho, Bool.false_eq_true, if_false]
        exact h2

/-- Claim C7 as stated is false: with two overdue agents a and b in the
snapshot and an exception raised while evaluating a (during its stale
update), agent b is NOT evaluated in that tick — no timeout alert for b is
dispatched, although b is overdue. -/
theorem c7_counterexample :
    ¬ (0 < ((check_all_agents_exc
        ⟨[⟨1, "a", StoredTime.parsed 0, 1, "success", "", 0⟩,
          ⟨2, "b", StoredTime.parsed 0, 1, "success", "", 0⟩], 3, []⟩ 7200
        (fun n => n == "a")).2.1.filter (isTimeoutAlertFor "b")).length) := by
  decide

/-- Claim C7 (amended): an exception raised while evaluating one agent
aborts the evaluation of the remaining agents in that tick's snapshot (the
loop body has no per-agent try/except): the tick's trace is the events of
the agents before the failing one followed by the failing agent's alert,
and the exception escapes the tick.  The watchdog's start loop catches it,
so every scheduled tick still runs (one event batch per tick). -/
theorem c7_exception_aborts_tick (st : DBState) (now : Int)
    (fails : String → Bool) (pre rest : List AgentRow) (r : AgentRow)
    (hsplit : st.agents = pre ++ r :: rest)
    (hpre : ∀ a ∈ pre, fails a.name = false)
    (hov : isOverdue now r = true) (hf : fails r.name = true) :
    (check_all_agents_exc st now fails).2.1 =
      sweepEventsOf now pre ++
        [Event.timeoutAlertDispatch r.name r.last_heartbeat
          (overdueHours now r)] ∧
    (check_all_agents_exc st now fails).2.2 = true ∧
    (∀ (st0 : DBState) (ticks : List (Int × (String → Bool))),
      (watchdogRun st0 ticks).2.length = ticks.length) := by
  have h := sweepLoopExc_abort now fails r rest hov hf pre st [] hpre
  refine ⟨?_, ?_, ?_⟩
  · rw [check_all_agents_exc, hsplit]
    simpa using h.1
  · rw [check_all_agents_exc, hsplit]
    exact h.2
  · intro st0 ticks
    induction ticks generalizing st0 with
    | nil => rfl
    | cons t rest2 ih =>
      obtain ⟨tn, tf⟩ := t
      simp only [watchdogRun, List.length_cons, ih]

/-- Witness for `c7_exception_aborts_tick`: the failing agent first in the
snapshot, one more overdue agent behind it. -/
theorem c7_exception_aborts_tick_witness :
    (check_all_agents_exc
        ⟨[⟨1, "a", StoredTime.parsed 0, 1, "success", "", 0⟩,
          ⟨2, "b", StoredTime.parsed 0, 1, "success", "", 0⟩], 3, []⟩ 7200
        (fun n => n == "a")).2.1 =
      [Event.timeoutAlertDispatch "a" (StoredTime.parsed 0) 2] ∧
    (check_all_agents_exc
        ⟨[⟨1, "a", StoredTime.parsed 0, 1, "success", "", 0⟩,
          ⟨2, "b", StoredTime.parsed 0, 1, "success", "", 0⟩], 3, []⟩ 7200
        (fun n => n == "a")).2.2 = true := by
  have h := c7_exception_aborts_tick
    ⟨[⟨1, "a", StoredTime.parsed 0, 1, "success", "", 0⟩,
      ⟨2, "b", StoredTime.parsed 0, 1, "success", "", 0⟩], 3, []⟩ 7200
    (fun n => n == "a") []
    [⟨2, "b", StoredTime.parsed 0, 1, "success", "", 0⟩]
    ⟨1, "a", StoredTime.parsed 0, 1, "success", "", 0⟩
    rfl (fun a ha => absurd ha (List.not_mem_nil a)) (by decide) rfl
  exact ⟨h.1, h.2.1⟩

/-! ### Claim C8 : the unknown-iff-null invariant -/

lemma heartbeatState_invalid (st : DBState) (hb : HeartbeatRequest)
    (now : Int) (h : ¬ (hb.status = "success" ∨ hb.status = "error")) :
    heartbeatState st hb now = st := by
  unfold heartbeatState receive_heartbeat
  rw [if_neg h]

/-- One processor or sweeper step preserves the row property used for the
unknown-iff-null invariant. -/
lemma inv_step (st : DBState) (op : Op)
    (hinv : ∀ r ∈ st.agents,
      r.status ≠ "unknown" ∧ r.last_heartbeat ≠ StoredTime.null) :
    ∀ r ∈ (applyOp st op).agents,
      r.status ≠ "unknown" ∧ r.last_heartbeat ≠ StoredTime.null := by
  cases op with
  | heartbeat hb now =>
    by_cases h : hb.status = "success" ∨ hb.status = "error"
    · intro r hr
      simp only [applyOp] at hr
      rw [heartbeatState_valid st hb now h] at hr
      rcases List.mem_append.mp hr with h1 | h2
      · exact hinv r (List.mem_of_mem_filter h1)
      · have heq : r = ⟨st.nextAgentId, hb.agent_name, StoredTime.parsed now,
            hb.expected_interval_hours, hb.status, hb.message, now⟩ := by
          simpa using h2
        subst heq
        refine ⟨?_, by simp⟩
        rcases h with hs | hs <;> simp [hs]
    · intro r hr
      simp only [applyOp, heartbeatState_invalid st hb now h] at hr
      exact hinv r hr
  | sweep now =>
    intro r hr
    simp only [applyOp] at hr
    rw [check_all_agents_state] at hr
    rcases List.mem_map.mp hr with ⟨a, ha, rfl⟩
    have h := hinv a ha
    unfold staleUpdate
    split
    · exact ⟨by simp, h.2⟩
    · exact h

lemma inv_foldl (ops : List Op) :
    ∀ (st : DBState),
      (∀ r ∈ st.agents,
        r.status ≠ "unknown" ∧ r.last_heartbeat ≠ StoredTime.null) →
      ∀ r ∈ (ops.foldl applyOp st).agents,
        r.status ≠ "unknown" ∧ r.last_heartbeat ≠ StoredTime.null := by
  induction ops with
  | nil =>
    intro st h
    simpa using h
  | cons op rest ih =>
    intro st h
    simp only [List.foldl_cons]
    exact ih (applyOp st op) (inv_step st op h)

/-- Claim C8: in every state reachable from the empty Registry by any
sequence of heartbeat and sweep operations, a row has status `unknown` iff
its heartbeat is null.  (In fact neither ever occurs: every row is created
by a validated report, which sets a success/error status and a non-null
heartbeat, and the sweep only ever writes `stale`.) -/
theorem c8_unknown_iff_null (ops : List Op) (r : AgentRow)
    (hmem : r ∈ (runOps ops).agents) :
    (r.status = "unknown" ↔ r.last_heartbeat = StoredTime.null) := by
  have h := inv_foldl ops emptyDB
    (fun r hr => absurd hr (List.not_mem_nil r)) r hmem
  constructor
  · intro hs
    exact absurd hs h.1
  · intro hn
    exact absurd hn h.2

/-- Witness for `c8_unknown_iff_null` after one successful report. -/
theorem c8_unknown_iff_null_witness :
    ((⟨1, "a", StoredTime.parsed 100, 24, "success", "", 100⟩ : AgentRow).status =
        "unknown" ↔
      (⟨1, "a", StoredTime.parsed 100, 24, "success", "", 100⟩ : AgentRow).last_heartbeat =
        StoredTime.null) :=
  c8_unknown_iff_null [Op.heartbeat ⟨"a", "success", "", 24⟩ 100]
    ⟨1, "a", StoredTime.parsed 100, 24, "success", "", 100⟩ (by decide)
